import Mathlib

/-!
Verification of the iRobot Open Interface (OI) driver specification for the
Roomba repository. The repository ships only host sketches (a test suite and
an ESP32 example); the protocol core they call (stream decoding, sensor
queries, command encoding, script codec) is modelled here from the
specification, faithfully to its words, and the claims are settled against
that model.

Conventions: bytes are natural numbers; multi-byte values are big-endian;
the checksum is the single-byte mod-256 sum-to-zero rule of the OI streaming
format.
-/

namespace Roomba

/-- Modelled from the spec: the Sensor Table (id to byte length), external
immutable data shared by all components. Individual packets 7 to 26 carry the
lengths of the Open Interface (1 byte for flags and small quantities, 2 bytes
for signed or unsigned telemetry), and the aggregate group ids 1, 2 and 3
carry the sum of their member lengths. Ids outside the table are unknown. -/
def sensorTable : List (Nat × Nat) :=
  [(1, 10), (2, 6), (3, 10),
   (7, 1), (8, 1), (9, 1), (10, 1), (11, 1), (12, 1), (13, 1), (14, 1),
   (15, 1), (16, 1), (17, 1), (18, 1), (19, 2), (20, 2), (21, 1), (22, 2),
   (23, 2), (24, 1), (25, 2), (26, 2)]

/-- Modelled from the spec: the byte length of a sensor id, none when the id
is not in the Sensor Table. -/
def sensorLength (id : Nat) : Option Nat :=
  (sensorTable.find? (fun p => p.1 == id)).map (fun p => p.2)

/-- Every length recorded in the Sensor Table is positive. -/
theorem sensorLength_pos (id l : Nat) (h : sensorLength id = some l) : 1 ≤ l := by
  unfold sensorLength at h
  cases hf : sensorTable.find? (fun p => p.1 == id) with
  | none => rw [hf] at h; cases h
  | some p =>
      rw [hf] at h
      have hmem := List.mem_of_find?_eq_some hf
      have hl : p.2 = l := by simpa using h
      have hpos : ∀ q ∈ sensorTable, 1 ≤ q.2 := by decide
      exact hl ▸ hpos p hmem

/-- Modelled from the spec: the phases of the StreamDecoder state machine,
WaitHeader, ReadLength, ReadIdValuePairs (split into expecting an id byte and
expecting the value bytes of the current id), VerifyChecksum. The numeric
fields carry the remaining payload byte count, the current id, the value
bytes still to read, and the partially assembled big-endian value. -/
inductive Phase where
  | waitHeader
  | readLength
  | expectId (remaining : Nat)
  | expectValue (remaining : Nat) (id : Nat) (left : Nat) (pv : Nat)
  | verifyChecksum
  deriving Repr, DecidableEq

/-- Modelled from the spec: the StreamFrame reassembly state of the decoder,
the phase, the accumulated id and value pairs of the in-progress frame, the
running byte sum (header, length, ids and values included), and the published
latest-snapshot map (most recent pair first). -/
structure DecoderState where
  phase : Phase
  acc : List (Nat × Nat)
  sum : Nat
  published : List (Nat × Nat)
  deriving Repr, DecidableEq

/-- Modelled from the spec: publishing the accumulated map makes each
accumulated pair the most recent entry for its id, later pairs shadowing
earlier ones within the frame. -/
def publish (acc pub : List (Nat × Nat)) : List (Nat × Nat) :=
  acc.foldl (fun m p => p :: m) pub

/-- Modelled from the spec: one byte fed to the StreamDecoder. WaitHeader
discards bytes until the header value 19; ReadLength treats a zero length as
malformed; ReadIdValuePairs rejects unknown ids and value runs that would
exceed the announced payload length; VerifyChecksum publishes exactly when
the mod-256 running sum including the checksum byte is zero, and otherwise
discards the accumulator and returns to WaitHeader. -/
def step (st : DecoderState) (b : Nat) : DecoderState :=
  match st.phase with
  | .waitHeader =>
      if b = 19 then { st with phase := .readLength, acc := [], sum := 19 }
      else st
  | .readLength =>
      if b = 0 then { st with phase := .waitHeader, acc := [], sum := 0 }
      else { st with phase := .expectId b, sum := st.sum + b }
  | .expectId n =>
      match sensorLength b with
      | none => { st with phase := .waitHeader, acc := [], sum := 0 }
      | some len =>
          if n < 1 + len then { st with phase := .waitHeader, acc := [], sum := 0 }
          else { st with phase := .expectValue (n - 1) b len 0, sum := st.sum + b }
  | .expectValue n id left pv =>
      if left ≤ 1 then
        if n ≤ 1 then
          { st with phase := .verifyChecksum
                    acc := st.acc ++ [(id, pv * 256 + b)]
                    sum := st.sum + b }
        else
          { st with phase := .expectId (n - 1)
                    acc := st.acc ++ [(id, pv * 256 + b)]
                    sum := st.sum + b }
      else
        { st with phase := .expectValue (n - 1) id (left - 1) (pv * 256 + b)
                  sum := st.sum + b }
  | .verifyChecksum =>
      if (st.sum + b) % 256 = 0 then
        { st with phase := .waitHeader
                  acc := []
                  sum := 0
                  published := publish st.acc st.published }
      else { st with phase := .waitHeader, acc := [], sum := 0 }

/-- Modelled from the spec: feeding a chunk of bytes to the decoder is the
left fold of the single-byte step. -/
def pump (st : DecoderState) (bs : List Nat) : DecoderState :=
  bs.foldl step st

/-- Modelled from the spec: a fresh streaming session starts waiting for a
header with empty accumulator and no published values. -/
def initState : DecoderState :=
  { phase := .waitHeader, acc := [], sum := 0, published := [] }

/-- Modelled from the spec: latestValue returns the most recently published
value for a sensor id, or none when no valid group containing that id has
been published. -/
def latestValue (st : DecoderState) (id : Nat) : Option Nat :=
  st.published.lookup id

/-- Modelled from the spec: a frame payload as a list of pairs of a sensor id
and its raw value bytes; the wire bytes are the id followed by the value
bytes, pair after pair. -/
def pairsBytes (ps : List (Nat × List Nat)) : List Nat :=
  (ps.map (fun p => p.1 :: p.2)).flatten

/-- Modelled from the spec: big-endian assembly of value bytes. -/
def beVal (bs : List Nat) : Nat :=
  bs.foldl (fun a b => a * 256 + b) 0

/-- Modelled from the spec: the id and value pairs a payload decodes to. -/
def decodedPairs (ps : List (Nat × List Nat)) : List (Nat × Nat) :=
  ps.map (fun p => (p.1, beVal p.2))

/-- Modelled from the spec: a well-formed payload is a non-empty pair list in
which every id is in the Sensor Table with exactly the announced number of
value bytes. -/
def validPairs (ps : List (Nat × List Nat)) : Prop :=
  ps ≠ [] ∧ ∀ p ∈ ps, sensorLength p.1 = some p.2.length

/-- Modelled from the spec: the wire frame for a payload and checksum byte,
header 19, length byte, id and value bytes, checksum. -/
def mkFrame (ps : List (Nat × List Nat)) (c : Nat) : List Nat :=
  19 :: (pairsBytes ps).length :: (pairsBytes ps ++ [c])

/-- Feeding the concatenation of two chunks is feeding one then the other. -/
theorem pump_append (st : DecoderState) (a b : List Nat) :
    pump st (a ++ b) = pump (pump st a) b :=
  List.foldl_append step st a b

/-- Big-endian assembly is the left fold of the byte shift starting at
zero. -/
theorem beVal_fold (vb : List Nat) :
    List.foldl (fun a b => a * 256 + b) 0 vb = beVal vb := rfl

/-- The byte rendering of a non-empty payload is non-empty. -/
theorem pairsBytes_ne_nil (ps : List (Nat × List Nat)) (h : ps ≠ []) :
    pairsBytes ps ≠ [] := by
  cases ps with
  | nil => exact absurd rfl h
  | cons p t => simp [pairsBytes]

/-- Running the decoder over the value bytes of the current sensor from the
expect-value phase accumulates the big-endian value, adds the bytes to the
running sum, and moves to the checksum phase exactly when the payload is
exhausted. -/
theorem pump_expectValue (vb : List Nat) (n id pv s : Nat) (acc pub : List (Nat × Nat))
    (h1 : vb ≠ []) (h2 : vb.length ≤ n) :
    pump ⟨.expectValue n id vb.length pv, acc, s, pub⟩ vb =
      if n = vb.length then
        ⟨.verifyChecksum, acc ++ [(id, vb.foldl (fun a b => a * 256 + b) pv)], s + vb.sum, pub⟩
      else
        ⟨.expectId (n - vb.length), acc ++ [(id, vb.foldl (fun a b => a * 256 + b) pv)],
          s + vb.sum, pub⟩ := by
  induction vb generalizing n pv s acc with
  | nil => exact absurd rfl h1
  | cons b vb ih =>
      cases vb with
      | nil =>
          have h2a : 1 ≤ n := by simpa using h2
          by_cases hn : n = 1
          · subst hn
            simp [pump, step]
          · have hn1 : ¬ n ≤ 1 := by omega
            simp [pump, step, hn, hn1]
      | cons b2 vb2 =>
          have hstep : step ⟨.expectValue n id (b :: b2 :: vb2).length pv, acc, s, pub⟩ b =
              ⟨.expectValue (n - 1) id (b2 :: vb2).length (pv * 256 + b), acc, s + b, pub⟩ := by
            simp only [step, List.length_cons]
            rw [if_neg (by omega)]
            simp
          have hlen2 : (b2 :: vb2).length ≤ n - 1 := by
            simp only [List.length_cons] at h2 ⊢
            omega
          have hpump : pump ⟨.expectValue n id (b :: b2 :: vb2).length pv, acc, s, pub⟩
              (b :: b2 :: vb2) =
              pump ⟨.expectValue (n - 1) id (b2 :: vb2).length (pv * 256 + b), acc, s + b, pub⟩
                (b2 :: vb2) := by
            simp only [pump, List.foldl_cons]
            rw [hstep]
          rw [hpump, ih (n - 1) (pv * 256 + b) (s + b) acc (by simp) hlen2]
          have hiff : n - 1 = (b2 :: vb2).length ↔ n = (b :: b2 :: vb2).length := by
            simp only [List.length_cons] at h2 ⊢
            omega
          by_cases hn : n = (b :: b2 :: vb2).length
          · rw [if_pos (hiff.mpr hn), if_pos hn]
            simp only [List.foldl_cons, List.sum_cons, DecoderState.mk.injEq,
              true_and, and_true]
            omega
          · rw [if_neg (fun h => hn (hiff.mp h)), if_neg hn]
            simp only [List.foldl_cons, List.sum_cons, List.length_cons,
              DecoderState.mk.injEq, Phase.expectId.injEq, true_and, and_true]
            omega

/-- Running the decoder over a well-formed payload from the expect-id phase
announcing exactly that payload's byte count accumulates the decoded pairs,
adds all payload bytes to the running sum, and lands in the checksum
phase. -/
theorem pump_expectId (ps : List (Nat × List Nat)) (s : Nat) (acc pub : List (Nat × Nat))
    (hps : ps ≠ []) (hv : ∀ p ∈ ps, sensorLength p.1 = some p.2.length) :
    pump ⟨.expectId (pairsBytes ps).length, acc, s, pub⟩ (pairsBytes ps) =
      ⟨.verifyChecksum, acc ++ decodedPairs ps, s + (pairsBytes ps).sum, pub⟩ := by
  induction ps generalizing s acc with
  | nil => exact absurd rfl hps
  | cons p rest ih =>
      obtain ⟨id, vb⟩ := p
      have hid : sensorLength id = some vb.length := hv (id, vb) (List.mem_cons_self _ _)
      have hvb : 1 ≤ vb.length := sensorLength_pos id vb.length hid
      have hbytes : pairsBytes ((id, vb) :: rest) = id :: (vb ++ pairsBytes rest) := by
        simp [pairsBytes]
      rw [hbytes]
      have hstep : step ⟨.expectId (id :: (vb ++ pairsBytes rest)).length, acc, s, pub⟩ id =
          ⟨.expectValue (vb.length + (pairsBytes rest).length) id vb.length 0,
            acc, s + id, pub⟩ := by
        simp only [step, hid, List.length_cons, List.length_append]
        rw [if_neg (by omega)]
        simp only [DecoderState.mk.injEq, Phase.expectValue.injEq, true_and, and_true]
        omega
      have hsplit : pump ⟨.expectId (id :: (vb ++ pairsBytes rest)).length, acc, s, pub⟩
          (id :: (vb ++ pairsBytes rest)) =
          pump (pump ⟨.expectValue (vb.length + (pairsBytes rest).length) id vb.length 0,
            acc, s + id, pub⟩ vb) (pairsBytes rest) := by
        simp only [pump, List.foldl_cons]
        rw [hstep, List.foldl_append]
      rw [hsplit]
      rw [pump_expectValue vb (vb.length + (pairsBytes rest).length) id 0 (s + id) acc pub
        (by intro h; rw [h] at hvb; exact absurd hvb (by simp)) (by omega)]
      cases rest with
      | nil =>
          rw [if_pos (by simp [pairsBytes])]
          simp only [pairsBytes, List.map_nil, List.flatten_nil, List.append_nil, pump,
            List.foldl_nil, decodedPairs, List.map_cons, beVal, DecoderState.mk.injEq,
            List.sum_cons, List.sum_append, List.sum_nil, true_and, and_true]
          omega
      | cons q rest2 =>
          have hrest : pairsBytes (q :: rest2) ≠ [] := pairsBytes_ne_nil _ (by simp)
          have hrl : 1 ≤ (pairsBytes (q :: rest2)).length := by
            cases hpb : pairsBytes (q :: rest2) with
            | nil => exact absurd hpb hrest
            | cons x xs => simp
          rw [if_neg (by omega)]
          have hsub : vb.length + (pairsBytes (q :: rest2)).length - vb.length =
              (pairsBytes (q :: rest2)).length := by omega
          rw [hsub, beVal_fold]
          rw [ih (s + id + vb.sum) (acc ++ [(id, beVal vb)]) (by simp)
            (fun p hp => hv p (List.mem_cons_of_mem _ hp))]
          simp only [decodedPairs, List.map_cons, List.sum_cons, List.sum_append,
            List.append_assoc, List.singleton_append, DecoderState.mk.injEq,
            true_and, and_true]
          omega

/-- Running the decoder over a complete well-formed frame from any
wait-header state publishes the decoded pairs over the previously published
map exactly when the mod-256 sum of header, length byte, payload bytes and
checksum byte is zero, and otherwise leaves the published map unchanged;
either way the decoder returns to the wait-header phase with a cleared
accumulator. -/
theorem pump_frame (ps : List (Nat × List Nat)) (c s0 : Nat) (acc0 pub : List (Nat × Nat))
    (hps : ps ≠ []) (hv : ∀ p ∈ ps, sensorLength p.1 = some p.2.length) :
    pump ⟨.waitHeader, acc0, s0, pub⟩ (mkFrame ps c) =
      if (19 + (pairsBytes ps).length + (pairsBytes ps).sum + c) % 256 = 0 then
        ⟨.waitHeader, [], 0, publish (decodedPairs ps) pub⟩
      else ⟨.waitHeader, [], 0, pub⟩ := by
  have hbne : pairsBytes ps ≠ [] := pairsBytes_ne_nil ps hps
  have hlen : (pairsBytes ps).length ≠ 0 := by
    intro h
    exact hbne (List.length_eq_zero.mp h)
  have h1 : step ⟨.waitHeader, acc0, s0, pub⟩ 19 = ⟨.readLength, [], 19, pub⟩ := by
    simp [step]
  have h2 : step ⟨.readLength, [], 19, pub⟩ (pairsBytes ps).length =
      ⟨.expectId (pairsBytes ps).length, [], 19 + (pairsBytes ps).length, pub⟩ := by
    simp only [step]
    rw [if_neg hlen]
  have hsplit : pump ⟨.waitHeader, acc0, s0, pub⟩ (mkFrame ps c) =
      pump (pump ⟨.expectId (pairsBytes ps).length, [], 19 + (pairsBytes ps).length, pub⟩
        (pairsBytes ps)) [c] := by
    simp only [mkFrame, pump, List.foldl_cons]
    rw [h1, h2, List.foldl_append]
    simp only [List.foldl_cons, List.foldl_nil]
  rw [hsplit, pump_expectId ps (19 + (pairsBytes ps).length) [] pub hps hv]
  simp [pump, step]

/-- C1: feeding a well-formed stream to the StreamDecoder in any partition
into chunks leaves the decoder in the same state, and hence publishes the
identical latest-snapshot map: pumping a concatenation of two byte chunks
equals pumping the first chunk and then the second, and pumping the
flattening of any chunk list equals folding the pump over the chunks. -/
theorem stream_chunking_invariant :
    (∀ (st : DecoderState) (a b : List Nat), pump st (a ++ b) = pump (pump st a) b) ∧
    (∀ (chunks : List (List Nat)) (st : DecoderState),
      pump st chunks.flatten = chunks.foldl pump st) := by
  constructor
  · exact fun st a b => List.foldl_append step st a b
  · intro chunks
    induction chunks with
    | nil => intro st; rfl
    | cons ch cs ih =>
        intro st
        have h : pump st ((ch :: cs).flatten) = pump (pump st ch) cs.flatten := by
          rw [List.flatten_cons]
          exact List.foldl_append step st ch cs.flatten
        rw [h, ih, List.foldl_cons]

/-- C2: after the decoder consumes a header, a length byte, the announced
payload bytes and one checksum byte, it publishes the accumulated id and
value map and clears the accumulator exactly when the mod-256 sum of header,
length, payload bytes and checksum is zero; when the sum is nonzero it
discards the accumulator and returns to WaitHeader with the previously
published values unchanged. -/
theorem checksum_gates_publication (ps : List (Nat × List Nat)) (c s0 : Nat)
    (acc0 pub : List (Nat × Nat)) (hv : validPairs ps) :
    ((19 + (pairsBytes ps).length + (pairsBytes ps).sum + c) % 256 = 0 →
      pump ⟨.waitHeader, acc0, s0, pub⟩ (mkFrame ps c) =
        ⟨.waitHeader, [], 0, publish (decodedPairs ps) pub⟩) ∧
    ((19 + (pairsBytes ps).length + (pairsBytes ps).sum + c) % 256 ≠ 0 →
      pump ⟨.waitHeader, acc0, s0, pub⟩ (mkFrame ps c) = ⟨.waitHeader, [], 0, pub⟩) := by
  obtain ⟨h1, h2⟩ := hv
  constructor
  · intro hz
    rw [pump_frame ps c s0 acc0 pub h1 h2, if_pos hz]
  · intro hz
    rw [pump_frame ps c s0 acc0 pub h1 h2, if_neg hz]

/-- Witness for C2: the valid frame for sensor 7 with value 5 and checksum
223 publishes, and the same frame with checksum 0 leaves nothing
published. -/
theorem checksum_gates_publication_witness :
    pump ⟨.waitHeader, [], 0, []⟩ (mkFrame [(7, [5])] 223) =
      ⟨.waitHeader, [], 0, publish (decodedPairs [(7, [5])]) []⟩ ∧
    pump ⟨.waitHeader, [], 0, []⟩ (mkFrame [(7, [5])] 0) = ⟨.waitHeader, [], 0, []⟩ :=
  ⟨(checksum_gates_publication [(7, [5])] 223 0 [] [] ⟨by decide, by decide⟩).1 (by decide),
   (checksum_gates_publication [(7, [5])] 0 0 [] [] ⟨by decide, by decide⟩).2 (by decide)⟩

/-- C3 counterexample: the claim fails as stated. The frame
19, 4, 7, 221, 7, 0, 254 is valid (zero mod-256 sum, and pumping it
publishes pairs for id 7); corrupting its single length byte 4 to 2 makes
the decoder publish the value 221 for id 7, not nothing. Moreover, the frame
19, 2, 7, 19, 209 is valid, yet substituting its id byte 7 with the unknown
id 42 and appending the uncorrupted valid frame 19, 2, 7, 5, 223 leaves id 7
unpublished, so the appended valid frame is not accepted either. -/
theorem single_byte_corruption_cex :
    ((19 + 4 + (7 + 221 + 7 + 0) + 254) % 256 = 0 ∧
     pump initState [19, 4, 7, 221, 7, 0, 254] =
       ⟨.waitHeader, [], 0, [(7, 0), (7, 221)]⟩) ∧
    latestValue (pump initState [19, 2, 7, 221, 7, 0, 254]) 7 = some 221 ∧
    ((19 + 2 + (7 + 19) + 209) % 256 = 0 ∧
     latestValue (pump initState [19, 2, 7, 19, 209]) 7 = some 19) ∧
    sensorLength 42 = none ∧
    latestValue (pump initState [19, 2, 7, 5, 223]) 7 = some 5 ∧
    latestValue (pump initState ([19, 2, 42, 19, 209] ++ [19, 2, 7, 5, 223])) 7 =
      none := by decide

/-- C3 (amended): for every valid frame, replacing the checksum byte by any
other byte value causes the frame to be dropped with nothing published and
the decoder back in WaitHeader with a cleared accumulator, and an
uncorrupted valid frame appended immediately after the corrupted bytes is
accepted and its snapshot published. -/
theorem checksum_corruption_drop_and_recover
    (ps ps2 : List (Nat × List Nat)) (c c2 d s0 : Nat) (acc0 pub : List (Nat × Nat))
    (hv : validPairs ps) (hv2 : validPairs ps2)
    (hz : (19 + (pairsBytes ps).length + (pairsBytes ps).sum + c) % 256 = 0)
    (hc : c < 256) (hc2 : c2 < 256) (hne : c2 ≠ c)
    (hz2 : (19 + (pairsBytes ps2).length + (pairsBytes ps2).sum + d) % 256 = 0) :
    pump ⟨.waitHeader, acc0, s0, pub⟩ (mkFrame ps c2) = ⟨.waitHeader, [], 0, pub⟩ ∧
    pump ⟨.waitHeader, acc0, s0, pub⟩ (mkFrame ps c2 ++ mkFrame ps2 d) =
      ⟨.waitHeader, [], 0, publish (decodedPairs ps2) pub⟩ := by
  obtain ⟨hne1, hval⟩ := hv
  obtain ⟨hne2, hval2⟩ := hv2
  have hz2ne : (19 + (pairsBytes ps).length + (pairsBytes ps).sum + c2) % 256 ≠ 0 := by
    omega
  have h1 : pump ⟨.waitHeader, acc0, s0, pub⟩ (mkFrame ps c2) =
      ⟨.waitHeader, [], 0, pub⟩ := by
    rw [pump_frame ps c2 s0 acc0 pub hne1 hval, if_neg hz2ne]
  refine ⟨h1, ?_⟩
  rw [pump_append, h1, pump_frame ps2 d 0 [] pub hne2 hval2, if_pos hz2]

/-- Witness for the amended C3: corrupting the checksum 223 of the valid
frame for sensor 7 to the byte 0 publishes nothing, and the appended valid
frame for sensor 8 is accepted and published. -/
theorem checksum_corruption_drop_and_recover_witness :
    pump ⟨.waitHeader, [], 0, []⟩ (mkFrame [(7, [5])] 0) = ⟨.waitHeader, [], 0, []⟩ ∧
    pump ⟨.waitHeader, [], 0, []⟩ (mkFrame [(7, [5])] 0 ++ mkFrame [(8, [1])] 226) =
      ⟨.waitHeader, [], 0, publish (decodedPairs [(8, [1])]) []⟩ :=
  checksum_corruption_drop_and_recover [(7, [5])] [(8, [1])] 223 0 226 0 [] []
    ⟨by decide, by decide⟩ ⟨by decide, by decide⟩
    (by decide) (by decide) (by decide) (by decide) (by decide)

/-- C6 counterexample: the claim fails as stated. For the byte sequence
19, 3, 7, 5, c the checksum making the mod-256 sum zero is c equal to 222,
yet feeding 19, 3, 7, 5, 222 to a fresh decoder leaves sensor 7 absent: the
length byte of this frame must be 2, the id and value byte count, not 3. -/
theorem scenario_literal_cex :
    (19 + 3 + 7 + 5 + 222) % 256 = 0 ∧
    latestValue (pump initState [19, 3, 7, 5, 222]) 7 = none := by decide

set_option maxRecDepth 40000 in
/-- C6 (amended): feeding the byte sequence 19, 2, 7, 5, 223, whose mod-256
sum is zero, to a fresh decoder yields latest value 5 for sensor 7, and
feeding the same sequence with the checksum byte replaced by any other byte
value yields absent for sensor 7. -/
theorem scenario_frame_amended :
    ((19 + 2 + 7 + 5 + 223) % 256 = 0 ∧
     latestValue (pump initState [19, 2, 7, 5, 223]) 7 = some 5) ∧
    ∀ c, c < 256 → c ≠ 223 → latestValue (pump initState [19, 2, 7, 5, c]) 7 = none := by
  decide

/-- Witness for the amended C6: the corrupted checksum byte 0 yields an
absent latest value for sensor 7. -/
theorem scenario_frame_amended_witness :
    latestValue (pump initState [19, 2, 7, 5, 0]) 7 = none :=
  scenario_frame_amended.2 0 (by decide) (by decide)

/-- Modelled from the spec: the error taxonomy of the driver, InvalidArgument
for caller-supplied values out of device-accepted range, Timeout for response
bytes that did not arrive in time, TooLarge for a script exceeding
capacity. -/
inductive DriverError where
  | invalidArgument
  | timeout
  | tooLarge
  deriving Repr, DecidableEq

/-- Modelled from the spec: the Transport boundary for blocking reads. An
arrival list pairs each delivered byte with its arrival time; the bytes
available within a timeout window are those whose arrival time is at most
the timeout. -/
def availBytes (arr : List (Nat × Nat)) (t : Nat) : List Nat :=
  (arr.filter (fun p => p.1 ≤ t)).map (fun p => p.2)

/-- Modelled from the spec: a blocking read of exactly n bytes with a
timeout, returning the bytes when they all arrive within the window and
failing with Timeout otherwise. -/
def readExact (n t : Nat) (arr : List (Nat × Nat)) : Except DriverError (List Nat) :=
  if n ≤ (availBytes arr t).length then Except.ok ((availBytes arr t).take n)
  else Except.error DriverError.timeout

/-- Modelled from the spec: querySingle writes the single-sensor opcode and
id byte, then blocks reading exactly the Sensor Table length of the id
within the timeout. The second component is the byte buffer the requester
retains after the call; it is empty on every path, so no partial response
survives a failed call. -/
def querySingleRun (id t : Nat) (arr : List (Nat × Nat)) :
    Except DriverError (List Nat) × List Nat :=
  match sensorLength id with
  | none => (Except.error DriverError.invalidArgument, [])
  | some len =>
      match readExact len t arr with
      | Except.ok bs => (Except.ok bs, [])
      | Except.error e => (Except.error e, [])

/-- Modelled from the spec: the result of a single-sensor query. -/
def querySingle (id t : Nat) (arr : List (Nat × Nat)) : Except DriverError (List Nat) :=
  (querySingleRun id t arr).1

/-- Modelled from the spec: queryList writes the list opcode, the count and
the ids, then blocks reading the sum of the Sensor Table lengths of the
requested ids; an empty id list, or a list whose ids contribute no response
bytes because none is known, fails with InvalidArgument. -/
def queryList (ids : List Nat) (t : Nat) (arr : List (Nat × Nat)) :
    Except DriverError (List Nat) :=
  if ids = [] then Except.error DriverError.invalidArgument
  else
    if (ids.map (fun i => (sensorLength i).getD 0)).sum = 0 then
      Except.error DriverError.invalidArgument
    else readExact ((ids.map (fun i => (sensorLength i).getD 0)).sum) t arr

/-- C4: for a non-empty list of known ids whose responses arrive in request
order, queryList returns exactly the concatenation of the per-id value
blocks, whose length is the sum of the table lengths of the requested ids;
querySingle likewise returns the value block of its single id; an empty id
list, or a non-empty list containing only unknown ids, fails with
InvalidArgument. -/
theorem query_length_and_order :
    (∀ (ids : List Nat) (dev : Nat → List Nat) (t : Nat) (arr : List (Nat × Nat))
        (rest : List Nat),
      ids ≠ [] →
      (∀ i ∈ ids, sensorLength i = some (dev i).length) →
      availBytes arr t = (ids.map dev).flatten ++ rest →
      queryList ids t arr = Except.ok ((ids.map dev).flatten) ∧
        ((ids.map dev).flatten).length =
          (ids.map (fun i => (sensorLength i).getD 0)).sum) ∧
    (∀ (id : Nat) (vb : List Nat) (t : Nat) (arr : List (Nat × Nat)) (rest : List Nat),
      sensorLength id = some vb.length →
      availBytes arr t = vb ++ rest →
      querySingle id t arr = Except.ok vb) ∧
    (∀ (t : Nat) (arr : List (Nat × Nat)),
      queryList [] t arr = Except.error DriverError.invalidArgument) ∧
    (∀ (ids : List Nat) (t : Nat) (arr : List (Nat × Nat)),
      ids ≠ [] → (∀ i ∈ ids, sensorLength i = none) →
      queryList ids t arr = Except.error DriverError.invalidArgument) := by
  refine ⟨?_, ?_, ?_, ?_⟩
  · intro ids dev t arr rest hne hlen havail
    have hmaps : ids.map (fun i => (sensorLength i).getD 0) = ids.map (fun i => (dev i).length) := by
      apply List.map_congr_left
      intro i hi
      rw [hlen i hi]
      rfl
    have hTot : (ids.map (fun i => (sensorLength i).getD 0)).sum =
        ((ids.map dev).flatten).length := by
      rw [List.length_flatten, List.map_map, hmaps]
      rfl
    have hpos : (ids.map (fun i => (sensorLength i).getD 0)).sum ≠ 0 := by
      cases ids with
      | nil => exact absurd rfl hne
      | cons i0 ids2 =>
          have h0 : sensorLength i0 = some (dev i0).length :=
            hlen i0 (List.mem_cons_self _ _)
          have h1 : 1 ≤ (dev i0).length := sensorLength_pos i0 (dev i0).length h0
          simp only [List.map_cons, List.sum_cons, h0, Option.getD_some]
          omega
    constructor
    · unfold queryList readExact
      rw [if_neg hne, if_neg hpos, havail, hTot]
      rw [if_pos (by simp)]
      rw [List.take_left]
    · exact hTot.symm
  · intro id vb t arr rest hid havail
    have hge : vb.length ≤ (vb ++ rest).length := by simp
    simp [querySingle, querySingleRun, readExact, hid, havail, hge, List.take_left]
  · intro t arr
    unfold queryList
    rw [if_pos rfl]
  · intro ids t arr hne hunk
    have hz : (ids.map (fun i => (sensorLength i).getD 0)).sum = 0 := by
      have : ids.map (fun i => (sensorLength i).getD 0) = ids.map (fun _ => 0) := by
        apply List.map_congr_left
        intro i hi
        rw [hunk i hi]
        rfl
      rw [this]
      simp
    unfold queryList
    rw [if_neg hne, if_pos hz]

/-- Witness for C4: querying the list of sensors 7 and 25 against a
transport delivering the blocks in request order returns the five bytes in
request order; querySingle on sensor 7 returns its single byte; the empty
list and the all-unknown list fail with InvalidArgument. -/
theorem query_length_and_order_witness :
    queryList [7, 25] 200 [(10, 9), (20, 1), (30, 44), (40, 0)] =
      Except.ok [9, 1, 44] ∧
    querySingle 7 200 [(10, 9), (20, 1), (30, 44), (40, 0)] = Except.ok [9] ∧
    queryList [] 200 [] = Except.error DriverError.invalidArgument ∧
    queryList [4, 42] 200 [(10, 9)] = Except.error DriverError.invalidArgument := by
  have h1 := (query_length_and_order.1 [7, 25]
    (fun i => if i = 7 then [9] else [1, 44]) 200
    [(10, 9), (20, 1), (30, 44), (40, 0)] [0]
    (by decide) (by decide) (by decide)).1
  have h2 := query_length_and_order.2.1 7 [9] 200
    [(10, 9), (20, 1), (30, 44), (40, 0)] [1, 44, 0] (by decide) (by decide)
  have h3 := query_length_and_order.2.2.1 200 []
  have h4 := query_length_and_order.2.2.2 [4, 42] 200 [(10, 9)] (by decide) (by decide)
  exact ⟨by simpa using h1, h2, h3, h4⟩

/-- C7: querying the two-byte battery charge sensor 25 against a transport
that delivers the bytes 1 and 44 within the 200 unit window returns those
bytes, which assemble big-endian to the value 300; against a transport that
delivers nothing within the window the query fails with Timeout. -/
theorem battery_charge_scenario :
    querySingle 25 200 [(50, 1), (100, 44)] = Except.ok [1, 44] ∧
    beVal [1, 44] = 300 ∧ 256 * 1 + 44 = 300 ∧
    querySingle 25 200 [(300, 1), (400, 44)] = Except.error DriverError.timeout :=
  ⟨rfl, rfl, rfl, rfl⟩

/-- C9: whenever fewer than the expected number of response bytes arrive
within the timeout window, querySingle fails with Timeout and the requester
retains no partial response buffer, so a retry starts from a clean state. -/
theorem partial_response_timeout_clean (id len t : Nat) (arr : List (Nat × Nat))
    (hid : sensorLength id = some len) (hshort : (availBytes arr t).length < len) :
    querySingleRun id t arr = (Except.error DriverError.timeout, []) ∧
    querySingle id t arr = Except.error DriverError.timeout := by
  have hnle : ¬ len ≤ (availBytes arr t).length := by omega
  constructor
  · simp [querySingleRun, readExact, hid, hnle]
  · simp [querySingle, querySingleRun, readExact, hid, hnle]

/-- Witness for C9: sensor 25 expects two bytes but only one arrives within
the window, so the query times out with an empty retained buffer. -/
theorem partial_response_timeout_clean_witness :
    querySingleRun 25 200 [(10, 1)] = (Except.error DriverError.timeout, []) ∧
    querySingle 25 200 [(10, 1)] = Except.error DriverError.timeout :=
  partial_response_timeout_clean 25 2 200 [(10, 1)] (by decide) (by decide)

/-- Modelled from the spec: the special drive radius value for driving
straight, forwarded as an unsigned 16-bit pattern. -/
def driveStraight : Int := 32768

/-- Modelled from the spec: a typed command with the argument payloads the
encoder validates, a drive with signed 16-bit velocity and radius, an LED
command with mask and power LED color and intensity bytes, and a song
definition with a slot and note and duration pairs. -/
inductive Command where
  | drive (velocity radius : Int)
  | leds (mask powerColor powerIntensity : Nat)
  | song (slot : Nat) (notes : List Nat)
  deriving Repr, DecidableEq

/-- Modelled from the spec: drive arguments are valid when the speed is
within 500 units of zero and the radius is within the accepted range or is
the defined special straight-drive value. -/
def driveValid (v r : Int) : Bool :=
  (-500 ≤ v && v ≤ 500) && ((-2000 ≤ r && r ≤ 2000) || r == driveStraight)

/-- Modelled from the spec: an LED mask is valid when it only uses the
defined bit set, the play bit 2 and the advance bit 8; the power LED color
and intensity must be bytes. -/
def ledsValid (mask powerColor powerIntensity : Nat) : Bool :=
  (mask &&& 245 == 0) && (powerColor ≤ 255) && (powerIntensity ≤ 255)

/-- Modelled from the spec: a song is valid when its slot is 0 to 15 and its
note byte count is even (note and duration pairs) and at most the device
maximum of 16 notes, 32 bytes. -/
def songValid (slot : Nat) (notes : List Nat) : Bool :=
  (slot ≤ 15) && (notes.length % 2 == 0) && (notes.length ≤ 32)

/-- Modelled from the spec: validity of a command's arguments. -/
def commandValid : Command → Bool
  | .drive v r => driveValid v r
  | .leds mask c i => ledsValid mask c i
  | .song slot notes => songValid slot notes

/-- Modelled from the spec: the big-endian two-byte rendering of a signed
16-bit value in two's complement. -/
def int16Bytes (x : Int) : List Nat :=
  [((x % 65536).toNat) / 256, ((x % 65536).toNat) % 256]

/-- Modelled from the spec: the exact byte sequence of a command, the opcode
byte followed by the argument bytes, big-endian for multi-byte arguments. -/
def encodeCommand : Command → List Nat
  | .drive v r => 137 :: (int16Bytes v ++ int16Bytes r)
  | .leds mask c i => [139, mask, c, i]
  | .song slot notes => 140 :: slot :: notes.length / 2 :: notes

/-- Modelled from the spec: send validates the argument ranges and only then
writes the encoded bytes to the Transport; on invalid arguments it fails
with InvalidArgument and writes nothing, all-or-nothing. -/
def send (cmd : Command) : Except DriverError (List Nat) :=
  match cmd with
  | .drive v r =>
      if driveValid v r then Except.ok (encodeCommand cmd)
      else Except.error DriverError.invalidArgument
  | .leds mask c i =>
      if ledsValid mask c i then Except.ok (encodeCommand cmd)
      else Except.error DriverError.invalidArgument
  | .song slot notes =>
      if songValid slot notes then Except.ok (encodeCommand cmd)
      else Except.error DriverError.invalidArgument

/-- Modelled from the spec: the bytes a send result puts on the wire, none
when the send failed. -/
def writtenBytes : Except DriverError (List Nat) → List Nat
  | Except.ok bs => bs
  | Except.error _ => []

/-- C8: every command whose arguments fail the range validation (drive
speed or radius out of range and not the special value, LED mask outside
the defined bit set, song slot above 15 or note count odd or above the
device maximum) fails with InvalidArgument and writes no bytes at all to
the Transport. -/
theorem invalid_command_writes_nothing (cmd : Command) (h : commandValid cmd = false) :
    send cmd = Except.error DriverError.invalidArgument ∧
    writtenBytes (send cmd) = [] := by
  cases cmd with
  | drive v r =>
      simp only [commandValid] at h
      simp [send, h, writtenBytes]
  | leds mask c i =>
      simp only [commandValid] at h
      simp [send, h, writtenBytes]
  | song slot notes =>
      simp only [commandValid] at h
      simp [send, h, writtenBytes]

/-- Witness for C8: a drive at speed 600, an LED mask using an undefined
bit, and a song with an odd note byte count all fail with InvalidArgument
and write nothing. -/
theorem invalid_command_writes_nothing_witness :
    (send (Command.drive 600 0) = Except.error DriverError.invalidArgument ∧
      writtenBytes (send (Command.drive 600 0)) = []) ∧
    (send (Command.leds 1 0 0) = Except.error DriverError.invalidArgument ∧
      writtenBytes (send (Command.leds 1 0 0)) = []) ∧
    (send (Command.song 0 [62, 12, 66]) = Except.error DriverError.invalidArgument ∧
      writtenBytes (send (Command.song 0 [62, 12, 66])) = []) :=
  ⟨invalid_command_writes_nothing (Command.drive 600 0) (by decide),
   invalid_command_writes_nothing (Command.leds 1 0 0) (by decide),
   invalid_command_writes_nothing (Command.song 0 [62, 12, 66]) (by decide)⟩

/-- Modelled from the spec: the device-defined maximum script length,
historically 100 bytes. -/
def maxScriptLength : Nat := 100

/-- Modelled from the spec: a ScriptBuffer is an ordered byte sequence
representing a macro. -/
structure ScriptBuffer where
  bytes : List Nat
  deriving Repr, DecidableEq

namespace ScriptCodec

/-- Modelled from the spec: encode concatenates the caller-supplied raw
opcode bytes into a ScriptBuffer and fails with TooLarge when the total
length exceeds the device's maximum script length. -/
def encode (opcodes : List Nat) : Except DriverError ScriptBuffer :=
  if opcodes.length ≤ maxScriptLength then Except.ok ⟨opcodes⟩
  else Except.error DriverError.tooLarge

/-- Modelled from the spec: decode returns the same bytes back, a
byte-transparent envelope. -/
def decode (buf : ScriptBuffer) : List Nat := buf.bytes

end ScriptCodec

/-- Modelled from the spec: storing a script on the device replaces the
previously stored script when the new one fits, and leaves the stored
script untouched when the new one exceeds capacity; the second component is
the stored script after the call. -/
def scriptStore (prev s : List Nat) : Except DriverError Unit × List Nat :=
  if s.length ≤ maxScriptLength then (Except.ok (), s)
  else (Except.error DriverError.tooLarge, prev)

/-- Modelled from the spec: reading the stored script back returns its
bytes. -/
def getScript (stored : List Nat) : List Nat := stored

/-- C5: for every byte sequence at or under the maximum script length,
encode succeeds and decode returns exactly the original byte sequence; for
every byte sequence exceeding the capacity, encode fails with TooLarge and
storing it writes nothing, leaving the stored script unchanged. -/
theorem script_roundtrip (s : List Nat) :
    (s.length ≤ maxScriptLength →
      ScriptCodec.encode s = Except.ok ⟨s⟩ ∧
      (ScriptCodec.encode s).map ScriptCodec.decode = Except.ok s) ∧
    (maxScriptLength < s.length →
      ScriptCodec.encode s = Except.error DriverError.tooLarge ∧
      ∀ prev, scriptStore prev s = (Except.error DriverError.tooLarge, prev)) := by
  constructor
  · intro h
    constructor
    · simp [ScriptCodec.encode, h]
    · simp [ScriptCodec.encode, ScriptCodec.decode, h, Except.map]
  · intro h
    have h2 : ¬ s.length ≤ maxScriptLength := by omega
    exact ⟨by simp [ScriptCodec.encode, h2],
      fun prev => by simp [scriptStore, h2]⟩

/-- Witness for C5: a four-byte script round-trips unchanged, and a
101-byte script fails with TooLarge leaving the stored script alone. -/
theorem script_roundtrip_witness :
    (ScriptCodec.encode [131, 131, 131, 131]).map ScriptCodec.decode =
      Except.ok [131, 131, 131, 131] ∧
    ScriptCodec.encode (List.replicate 101 131) = Except.error DriverError.tooLarge ∧
    scriptStore [131] (List.replicate 101 131) =
      (Except.error DriverError.tooLarge, [131]) :=
  ⟨((script_roundtrip [131, 131, 131, 131]).1 (by decide)).2,
   ((script_roundtrip (List.replicate 101 131)).2 (by decide)).1,
   ((script_roundtrip (List.replicate 101 131)).2 (by decide)).2 [131]⟩

/-- C10: storing a script fully replaces any previously stored script, and
the empty script is accepted rather than rejected: after storing a
non-empty script and then storing the empty one, reading the script back
returns zero bytes, not the earlier script's bytes. -/
theorem script_store_replaces (prev s : List Nat) (h : s.length ≤ maxScriptLength) :
    scriptStore prev s = (Except.ok (), s) ∧
    (getScript (scriptStore (scriptStore prev [131, 131, 131, 131]).2 []).2).length = 0 := by
  constructor
  · simp [scriptStore, h]
  · simp [scriptStore, getScript, maxScriptLength]

/-- Witness for C10: after storing four opcode bytes over the stored script
7 and then storing the empty script, the script read back has zero
bytes. -/
theorem script_store_replaces_witness :
    scriptStore [7] [] = (Except.ok (), []) ∧
    (getScript (scriptStore (scriptStore [7] [131, 131, 131, 131]).2 []).2).length = 0 :=
  script_store_replaces [7] [] (by decide)

end Roomba
